import Mathlib

/-!
Shallow embedding of the refactor-bot core: the data model and merge
utilities from `src/refactor/types.ts`, the `enrichObjective` transform
from `src/refactor/enrichObjective.ts`, and the plan-execute-validate
control loop from `src/refactor/planAndRefactor.ts`.

JavaScript records (`Record<string, T[]>`) are embedded as total
functions `String → Option (List T)`: `none` models an absent key,
`some l` a present key bound to the array `l`.  The asynchronous control
loop is embedded as a fuel-bounded recursive function over an
environment of collaborator oracles; side effects (event dispatches,
sandbox resets) are recorded in an explicit trace.
-/

namespace RefactorBot

/-- `issueSchema` from types.ts: a finding from a validation script. -/
structure Issue where
  command : String
  issue : String
  filePath : String
  commit : String
  code : Option String
deriving DecidableEq, Repr

/-- `refactorStepResultSchema` from types.ts: one attempted edit. -/
structure RefactorStepResult where
  task : String
  fileContents : String
  commit : String
deriving DecidableEq, Repr

/-- `refactorSuccessResultSchema` from types.ts. -/
structure RefactorSuccessResult where
  filePath : String
  issues : List Issue
  steps : List RefactorStepResult
  lastCommit : Option String
deriving DecidableEq, Repr

/-- `refactorFailedResultSchema` from types.ts. -/
structure RefactorFailedResult where
  failureDescription : String
  filePath : String
  issues : List Issue
  steps : List RefactorStepResult
  lastCommit : Option String
deriving DecidableEq, Repr

/-- `refactorResultSchema` from types.ts: discriminated union on `status`. -/
inductive RefactorResult where
  | success : RefactorSuccessResult → RefactorResult
  | failure : RefactorFailedResult → RefactorResult
deriving DecidableEq, Repr

/-- The `filePath` field shared by both variants of the union. -/
def RefactorResult.filePath : RefactorResult → String
  | RefactorResult.success s => s.filePath
  | RefactorResult.failure f => f.filePath

/-- A JavaScript record `Record<string, T[]>`: `none` is an absent key. -/
def Rec (α : Type) : Type := String → Option (List α)

/-- The array stored at `key`, reading an absent key as the empty array. -/
def recordValueAt {α : Type} (r : Rec α) (key : String) : List α :=
  (r key).getD []

/-- `refactorFilesResultSchema` from types.ts: `accepted` maps file paths
to arrays of results, `discarded` maps file paths to arrays of failed
results. -/
structure RefactorFilesResult where
  accepted : Rec RefactorResult
  discarded : Rec RefactorFailedResult

/-- The empty `RefactorFilesResult` `{accepted: {}, discarded: {}}`. -/
def emptyRefactorFilesResult : RefactorFilesResult :=
  { accepted := fun _ => none, discarded := fun _ => none }

/-- `lastCommit` from types.ts: `steps[steps.length - 1]?.commit`.  For an
empty array the JavaScript index is out of range and optional chaining
yields `undefined`, embedded as `none`. -/
def lastCommit (steps : List RefactorStepResult) : Option String :=
  (steps.get? (steps.length - 1)).map RefactorStepResult.commit

/-- `pushRefactorFileResults` from types.ts: reads
`into[result.filePath]`; if the array exists (any array, even empty, is
truthy) the result is pushed onto it, otherwise the key is assigned the
one-element array `[result]`.  The mutation of `into` is embedded as
returning the updated record. -/
def pushRefactorFileResults (result : RefactorResult) (into : Rec RefactorResult) :
    Rec RefactorResult :=
  fun file =>
    if file = result.filePath then
      match into result.filePath with
      | some array => some (array ++ [result])
      | none => some [result]
    else into file

/-- `mutateToMergeRefactorRecords` from types.ts: for every key of
`frm` (the `from` record), concatenate onto the existing array of `into`
when the key is present there (an existing empty array is truthy and is
concatenated as well), otherwise assign `frm`'s array; keys absent from
`frm` are untouched.  The mutation of `into` is embedded as returning
the updated record.  The TypeScript function is untyped enough to be
applied to both `accepted` and `discarded` records, hence the type
parameter. -/
def mutateToMergeRefactorRecords {α : Type} (frm into : Rec α) : Rec α :=
  fun file =>
    match frm file with
    | none => into file
    | some tasks =>
      match into file with
      | some existing => some (existing ++ tasks)
      | none => some tasks

/-- `mutateToMergeRefactorFilesResults` from types.ts: merge `accepted`
into `accepted` and `discarded` into `discarded`, componentwise. -/
def mutateToMergeRefactorFilesResults (frm into : RefactorFilesResult) :
    RefactorFilesResult :=
  { accepted := mutateToMergeRefactorRecords frm.accepted into.accepted,
    discarded := mutateToMergeRefactorRecords frm.discarded into.discarded }

/-- A chat message as consumed by `enrichObjective`: the embedding keeps
the `role` and `content` fields, and models the presence of a
`functionCall` property (`'functionCall' in lastMessage`) as `some`. -/
structure Message where
  role : String
  content : String
  functionCall : Option String
deriving DecidableEq, Repr

/-- The `transform` of `enrichObjective` from enrichObjective.ts, after
the external `promptWithFunctions` collaborator has produced `messages`:
reads `messages[messages.length - 1]`, throws when it is absent, when
its role is not `assistant`, or when it carries a `functionCall`
property; otherwise returns
`[input.objective.trim(), lastMessage.content.trim()].join('\n\n')`.
Thrown errors are embedded as `Except.error` of the message text. -/
def enrichObjective (objective : String) (messages : List Message) :
    Except String String :=
  match messages.get? (messages.length - 1) with
  | none => Except.error "No messages found after prompt"
  | some lastMessage =>
    if lastMessage.role ≠ "assistant" then
      Except.error "Expected last message to be from assistant"
    else if lastMessage.functionCall.isSome then
      Except.error "Expected last message to not be a function-call"
    else
      Except.ok (String.intercalate "\n\n" [objective.trim, lastMessage.content.trim])

/-!
## The plan-execute-validate control loop

`planAndRefactor` from planAndRefactor.ts.  The collaborators are
embedded as oracles indexed by call position: `planFiles` may resolve
with a plan or reject (a rejection is either the distinguished
`CycleDetectedError` or any other error), and `refactorBatch` yields the
batch outcome for an iteration.  Every awaited side effect is recorded
in an explicit event trace; the `while` loop is embedded as a
fuel-bounded recursion (`none` = the fuel ran out before the loop
exited).
-/

/-- A JavaScript error thrown by a collaborator: either the
distinguished `CycleDetectedError` or any other error. -/
inductive JsError where
  | cycleDetected : JsError
  | other : String → JsError
deriving DecidableEq, Repr

/-- `planFilesResultSchema`: what one `planFiles` call resolves with. -/
structure PlanFilesResult where
  plannedFiles : List String
  rawResponse : String
deriving DecidableEq, Repr

/-- Observable side effects of a run, in the order they occur. -/
inductive Event where
  | planFilesCalled : Nat → Event
  | planFilesCompleteDispatched : PlanFilesResult → Event
  | refactorBatchCalled : Nat → List String → Event
  | resetCalled : Nat → Event
  | resultsMerged : Nat → Event
deriving DecidableEq, Repr

/-- Collaborator oracles: `planFiles n` is the outcome of the `n`-th
planning call of the run (the initial call is call 0), and
`refactorBatch n files` is the batch outcome of loop iteration `n`. -/
structure Env where
  planFiles : Nat → Except JsError PlanFilesResult
  refactorBatch : Nat → List String → RefactorFilesResult

/-- The local state of one `planAndRefactor` run: the `files`
accumulator, the `planFilesResults` audit list, and the trace of side
effects performed so far. -/
structure RunState where
  files : RefactorFilesResult
  planFilesResults : List PlanFilesResult
  trace : List Event

/-- The `.catch` clause attached to every re-planning call: a rejection
with `CycleDetectedError` is replaced by the empty plan
`{plannedFiles: [], rawResponse: ''}` (after logging a warning); any
other rejection is re-raised unchanged. -/
def catchCycleDetected (r : Except JsError PlanFilesResult) :
    Except JsError PlanFilesResult :=
  match r with
  | Except.error JsError.cycleDetected =>
    Except.ok { plannedFiles := [], rawResponse := "" }
  | o => o

/-- The `while (plannedFiles.length > 0)` loop of `planAndRefactor`.
Each iteration awaits `refactorBatch`, awaits
`resetToLastAcceptedCommit`, merges the batch outcome into the
accumulator via `mutateToMergeRefactorFilesResults`, re-plans with the
cycle-catching clause, dispatches `planFilesComplete`, splices the new
planned list into `plannedFiles` and pushes the plan record.  A
rejection of the re-planning call that is not a `CycleDetectedError`
rejects the whole run; the error carries the trace of side effects that
did happen.  `none` means the fuel ran out with the loop still
running. -/
def planAndRefactorLoop (env : Env) :
    Nat → Nat → List String → RunState → Option (Except (JsError × List Event) RunState)
  | 0, _, _, _ => none
  | fuel + 1, iter, plannedFiles, st =>
    if plannedFiles.length > 0 then
      let result := env.refactorBatch iter plannedFiles
      let st1 : RunState :=
        { st with trace := st.trace ++ [Event.refactorBatchCalled iter plannedFiles] }
      let st2 : RunState :=
        { st1 with trace := st1.trace ++ [Event.resetCalled iter] }
      let st3 : RunState :=
        { st2 with
          files := mutateToMergeRefactorFilesResults result st2.files,
          trace := st2.trace ++ [Event.resultsMerged iter] }
      let st4 : RunState :=
        { st3 with trace := st3.trace ++ [Event.planFilesCalled (iter + 1)] }
      match catchCycleDetected (env.planFiles (iter + 1)) with
      | Except.error e => some (Except.error (e, st4.trace))
      | Except.ok repeatedPlanResult =>
        let st5 : RunState :=
          { st4 with
            trace := st4.trace ++ [Event.planFilesCompleteDispatched repeatedPlanResult] }
        let st6 : RunState :=
          { st5 with planFilesResults := st5.planFilesResults ++ [repeatedPlanResult] }
        planAndRefactorLoop env fuel (iter + 1) repeatedPlanResult.plannedFiles st6
    else
      some (Except.ok st)

/-- The value returned by a completed `planAndRefactor` run:
`{...files, planFilesResults}`. -/
structure RunResult where
  accepted : Rec RefactorResult
  discarded : Rec RefactorFailedResult
  planFilesResults : List PlanFilesResult

/-- `planAndRefactor` from planAndRefactor.ts: performs the initial
`planFiles` call (whose rejection — of any class, the initial call has
no catch — rejects the run), dispatches `planFilesComplete`, records the
plan, and runs the `while` loop.  A completed run returns the merged
`RefactorFilesResult` together with the `planFilesResults` audit list
and the trace of side effects. -/
def planAndRefactor (env : Env) (fuel : Nat) :
    Option (Except (JsError × List Event) (RunResult × List Event)) :=
  match env.planFiles 0 with
  | Except.error e => some (Except.error (e, [Event.planFilesCalled 0]))
  | Except.ok planResult =>
    let st : RunState :=
      { files := emptyRefactorFilesResult,
        planFilesResults := [planResult],
        trace := [Event.planFilesCalled 0,
                  Event.planFilesCompleteDispatched planResult] }
    match planAndRefactorLoop env fuel 0 planResult.plannedFiles st with
    | none => none
    | some (Except.error e) => some (Except.error e)
    | some (Except.ok stFinal) =>
      some (Except.ok
        ({ accepted := stFinal.files.accepted,
           discarded := stFinal.files.discarded,
           planFilesResults := stFinal.planFilesResults }, stFinal.trace))

/-!
## Theorems about the merge utilities and `enrichObjective`
-/

/-- Helper: per-key, merging a record concatenates the existing array of
`into` with the array of `frm`, reading absent keys as empty. -/
theorem recordValueAt_merge {α : Type} (frm into : Rec α) (key : String) :
    recordValueAt (mutateToMergeRefactorRecords frm into) key
      = recordValueAt into key ++ recordValueAt frm key := by
  unfold recordValueAt mutateToMergeRefactorRecords
  cases h1 : frm key <;> cases h2 : into key <;> simp

/-- C2: `mutateToMergeRefactorFilesResults` makes, for every file path
key, the merged `accepted` entry equal to the previous `into.accepted`
entry followed by the `from.accepted` entry (absent keys read as empty),
and likewise for `discarded`; the two components never mix and order
within each key is preserved. -/
theorem mergeRefactorFilesResults_concatenates_per_key
    (frm into : RefactorFilesResult) (key : String) :
    recordValueAt (mutateToMergeRefactorFilesResults frm into).accepted key
      = recordValueAt into.accepted key ++ recordValueAt frm.accepted key
    ∧ recordValueAt (mutateToMergeRefactorFilesResults frm into).discarded key
      = recordValueAt into.discarded key ++ recordValueAt frm.discarded key :=
  ⟨recordValueAt_merge frm.accepted into.accepted key,
   recordValueAt_merge frm.discarded into.discarded key⟩

/-- C3: writing `merge(A, B)` for merging the delta `B` into the
accumulator `A` (that is, `mutateToMergeRefactorFilesResults` with
`from := B, into := A`), the empty result is a left identity and merge
is associative, where equality is per-key equality of the ordered
`accepted` and `discarded` arrays. -/
theorem mergeRefactorFilesResults_identity_assoc
    (A B C X : RefactorFilesResult) (key : String) :
    recordValueAt (mutateToMergeRefactorFilesResults X emptyRefactorFilesResult).accepted key
      = recordValueAt X.accepted key
    ∧ recordValueAt (mutateToMergeRefactorFilesResults X emptyRefactorFilesResult).discarded key
      = recordValueAt X.discarded key
    ∧ recordValueAt (mutateToMergeRefactorFilesResults C
        (mutateToMergeRefactorFilesResults B A)).accepted key
      = recordValueAt (mutateToMergeRefactorFilesResults
          (mutateToMergeRefactorFilesResults C B) A).accepted key
    ∧ recordValueAt (mutateToMergeRefactorFilesResults C
        (mutateToMergeRefactorFilesResults B A)).discarded key
      = recordValueAt (mutateToMergeRefactorFilesResults
          (mutateToMergeRefactorFilesResults C B) A).discarded key := by
  refine ⟨?_, ?_, ?_, ?_⟩ <;>
    simp only [mutateToMergeRefactorFilesResults, recordValueAt_merge] <;>
    simp [emptyRefactorFilesResult, recordValueAt, List.append_assoc]

/-- C4: `lastCommit` yields `none` on an empty step list and the commit
of the final step on a non-empty one; hence a result whose `lastCommit`
field is computed by this helper equals the commit of its final step, or
is absent when there are no steps. -/
theorem lastCommit_is_final_step_commit (steps : List RefactorStepResult) :
    (steps = [] → lastCommit steps = none)
    ∧ (∀ pre s, steps = pre ++ [s] → lastCommit steps = some s.commit) := by
  constructor
  · rintro rfl
    rfl
  · rintro pre s rfl
    simp [lastCommit, List.get?_concat_length]

/-- Witness for C4 at the concrete step lists `[]` and `[step]`. -/
theorem lastCommit_is_final_step_commit_witness :
    lastCommit [] = none
    ∧ lastCommit [{ task := "t", fileContents := "f", commit := "c1" }]
        = some "c1" :=
  ⟨(lastCommit_is_final_step_commit []).1 rfl,
   (lastCommit_is_final_step_commit
      [{ task := "t", fileContents := "f", commit := "c1" }]).2
      [] { task := "t", fileContents := "f", commit := "c1" } rfl⟩

/-- C10: `pushRefactorFileResults` leaves every key other than
`result.filePath` unchanged, and afterwards the entry at
`result.filePath` is the previous array (empty when the key was absent)
with `result` appended as its last element. -/
theorem pushRefactorFileResults_frame_and_append
    (r : RefactorResult) (m : Rec RefactorResult) :
    (∀ p, p ≠ r.filePath → pushRefactorFileResults r m p = m p)
    ∧ pushRefactorFileResults r m r.filePath
        = some (recordValueAt m r.filePath ++ [r]) := by
  constructor
  · intro p hp
    simp [pushRefactorFileResults, hp]
  · unfold pushRefactorFileResults recordValueAt
    cases h : m r.filePath <;> simp

/-- Witness for C10 at a concrete result and record. -/
theorem pushRefactorFileResults_frame_and_append_witness :
    pushRefactorFileResults
        (RefactorResult.success
          { filePath := "f.ts", issues := [], steps := [], lastCommit := none })
        (fun _ => none) "g.ts"
      = (fun _ => (none : Option (List RefactorResult))) "g.ts"
    ∧ pushRefactorFileResults
        (RefactorResult.success
          { filePath := "f.ts", issues := [], steps := [], lastCommit := none })
        (fun _ => none)
        (RefactorResult.success
          { filePath := "f.ts", issues := [], steps := [], lastCommit := none }).filePath
      = some (recordValueAt (fun _ => none)
          (RefactorResult.success
            { filePath := "f.ts", issues := [], steps := [], lastCommit := none }).filePath
          ++ [RefactorResult.success
              { filePath := "f.ts", issues := [], steps := [], lastCommit := none }]) :=
  ⟨(pushRefactorFileResults_frame_and_append
      (RefactorResult.success
        { filePath := "f.ts", issues := [], steps := [], lastCommit := none })
      (fun _ => none)).1 "g.ts" (by decide),
   (pushRefactorFileResults_frame_and_append
      (RefactorResult.success
        { filePath := "f.ts", issues := [], steps := [], lastCommit := none })
      (fun _ => none)).2⟩

/-- Helper: `['a', 'b'].join(sep)` is `a + sep + b`. -/
theorem intercalate_pair (a b : String) :
    String.intercalate "\n\n" [a, b] = a ++ "\n\n" ++ b := rfl

/-- C9: `enrichObjective` throws exactly when the message list is empty,
or its last message is not from the assistant, or its last message
carries a function call; otherwise it returns the trimmed objective,
two newline characters, and the trimmed content of the last assistant
message.  The error branches produce no result value. -/
theorem enrichObjective_cases (objective : String) (messages : List Message) :
    (messages = [] →
      enrichObjective objective messages
        = Except.error "No messages found after prompt")
    ∧ (∀ pre m, messages = pre ++ [m] →
        (m.role ≠ "assistant" →
          enrichObjective objective messages
            = Except.error "Expected last message to be from assistant")
        ∧ (∀ fc, m.functionCall = some fc →
            m.role = "assistant" →
            enrichObjective objective messages
              = Except.error "Expected last message to not be a function-call")
        ∧ (m.functionCall = none →
            m.role = "assistant" →
            enrichObjective objective messages
              = Except.ok (objective.trim ++ "\n\n" ++ m.content.trim))) := by
  constructor
  · rintro rfl
    rfl
  · rintro pre m rfl
    refine ⟨?_, ?_, ?_⟩
    · intro hrole
      simp [enrichObjective, List.get?_concat_length, hrole]
    · intro fc hfc hrole
      simp [enrichObjective, List.get?_concat_length, hrole, hfc]
    · intro hfc hrole
      simp [enrichObjective, List.get?_concat_length, hrole, hfc,
        intercalate_pair]

/-- Witness for C9 at the empty list and at a concrete assistant
message. -/
theorem enrichObjective_cases_witness :
    enrichObjective "o" [] = Except.error "No messages found after prompt"
    ∧ enrichObjective "o" [{ role := "assistant", content := "hi", functionCall := none }]
        = Except.ok ("o".trim ++ "\n\n" ++ "hi".trim) :=
  ⟨(enrichObjective_cases "o" []).1 rfl,
   ((enrichObjective_cases "o"
      [{ role := "assistant", content := "hi", functionCall := none }]).2
      [] { role := "assistant", content := "hi", functionCall := none } rfl).2.2
      rfl rfl⟩

/-!
## Theorems about the control loop
-/

/-- Helper: one unfolding of the loop on a non-empty planned list.  The
iteration runs the batch, resets the sandbox, merges the batch outcome,
and re-plans; a non-cycle rejection of the re-planning call rejects the
run, otherwise the dispatched and recorded plan drives the next
iteration. -/
theorem planAndRefactorLoop_cons (env : Env) (fuel iter : Nat) (pf : List String)
    (st : RunState) (h : pf ≠ []) :
    planAndRefactorLoop env (fuel + 1) iter pf st =
      match catchCycleDetected (env.planFiles (iter + 1)) with
      | Except.error e =>
        some (Except.error (e,
          st.trace ++ [Event.refactorBatchCalled iter pf, Event.resetCalled iter,
            Event.resultsMerged iter, Event.planFilesCalled (iter + 1)]))
      | Except.ok rep =>
        planAndRefactorLoop env fuel (iter + 1) rep.plannedFiles
          { files := mutateToMergeRefactorFilesResults (env.refactorBatch iter pf) st.files,
            planFilesResults := st.planFilesResults ++ [rep],
            trace := st.trace ++ [Event.refactorBatchCalled iter pf, Event.resetCalled iter,
              Event.resultsMerged iter, Event.planFilesCalled (iter + 1),
              Event.planFilesCompleteDispatched rep] } := by
  have hlen : pf.length > 0 := List.length_pos.mpr h
  cases hres : catchCycleDetected (env.planFiles (iter + 1)) with
  | error e =>
    simp only [planAndRefactorLoop, if_pos hlen, hres]
    simp [List.append_assoc]
  | ok rep =>
    simp only [planAndRefactorLoop, if_pos hlen, hres]
    simp [List.append_assoc]

/-- Helper: the loop exits immediately, and successfully, on an empty
planned list. -/
theorem planAndRefactorLoop_nil (env : Env) (fuel iter : Nat) (st : RunState) :
    planAndRefactorLoop env (fuel + 1) iter [] st = some (Except.ok st) := rfl

/-- C1: when a re-planning call rejects with `CycleDetectedError`, the
loop substitutes the empty plan `{plannedFiles: [], rawResponse: ''}`
and terminates normally with the results accumulated so far (the merged
batch outcomes and the audit list extended by the substituted empty
record); when the re-planning call rejects with any other error, that
error propagates and no result object is produced. -/
theorem replanning_error_handling (env : Env) (fuel iter : Nat)
    (pf : List String) (st : RunState) (hne : pf ≠ []) :
    (env.planFiles (iter + 1) = Except.error JsError.cycleDetected →
      planAndRefactorLoop env (fuel + 2) iter pf st = some (Except.ok
        { files := mutateToMergeRefactorFilesResults (env.refactorBatch iter pf) st.files,
          planFilesResults := st.planFilesResults
            ++ [{ plannedFiles := [], rawResponse := "" }],
          trace := st.trace ++ [Event.refactorBatchCalled iter pf, Event.resetCalled iter,
            Event.resultsMerged iter, Event.planFilesCalled (iter + 1),
            Event.planFilesCompleteDispatched { plannedFiles := [], rawResponse := "" }] }))
    ∧ (∀ msg, env.planFiles (iter + 1) = Except.error (JsError.other msg) →
        planAndRefactorLoop env (fuel + 2) iter pf st = some (Except.error
          (JsError.other msg,
           st.trace ++ [Event.refactorBatchCalled iter pf, Event.resetCalled iter,
             Event.resultsMerged iter, Event.planFilesCalled (iter + 1)]))) := by
  constructor
  · intro hcycle
    rw [show fuel + 2 = (fuel + 1) + 1 from rfl,
      planAndRefactorLoop_cons env (fuel + 1) iter pf st hne, hcycle]
    rfl
  · intro msg herr
    rw [show fuel + 2 = (fuel + 1) + 1 from rfl,
      planAndRefactorLoop_cons env (fuel + 1) iter pf st hne, herr]
    rfl

/-- C5: every loop iteration entered with a non-empty planned list runs,
in this strict order, the batch refactor, the sandbox reset, the merge
into the accumulator, and then the re-planning call (followed by the
dispatch and the record of the new plan, which drives the next
iteration); the body is never entered on an empty list, and the loop
exits, successfully, exactly when the planned list is empty. -/
theorem loop_iteration_order (env : Env) (fuel iter : Nat) (pf : List String)
    (st : RunState) :
    (pf = [] → planAndRefactorLoop env (fuel + 1) iter pf st = some (Except.ok st))
    ∧ (pf ≠ [] →
        planAndRefactorLoop env (fuel + 1) iter pf st =
          match catchCycleDetected (env.planFiles (iter + 1)) with
          | Except.error e =>
            some (Except.error (e,
              st.trace ++ [Event.refactorBatchCalled iter pf, Event.resetCalled iter,
                Event.resultsMerged iter, Event.planFilesCalled (iter + 1)]))
          | Except.ok rep =>
            planAndRefactorLoop env fuel (iter + 1) rep.plannedFiles
              { files := mutateToMergeRefactorFilesResults
                  (env.refactorBatch iter pf) st.files,
                planFilesResults := st.planFilesResults ++ [rep],
                trace := st.trace ++ [Event.refactorBatchCalled iter pf,
                  Event.resetCalled iter, Event.resultsMerged iter,
                  Event.planFilesCalled (iter + 1),
                  Event.planFilesCompleteDispatched rep] }) := by
  constructor
  · rintro rfl
    exact planAndRefactorLoop_nil env fuel iter st
  · intro hne
    exact planAndRefactorLoop_cons env fuel iter pf st hne

/-- Is this event a planning call? -/
def isPlanFilesCalled : Event → Bool
  | Event.planFilesCalled _ => true
  | _ => false

/-- Is this event a `planFilesComplete` dispatch? -/
def isDispatched : Event → Bool
  | Event.planFilesCompleteDispatched _ => true
  | _ => false

/-- Is this event a planning call or a dispatch? -/
def isPlanEvent (e : Event) : Bool := isPlanFilesCalled e || isDispatched e

/-- The plan-related trace of a run whose recorded plans are `ps` and
whose first recorded call has index `i`: each call is immediately
followed by exactly one dispatch of the recorded result. -/
def mkPlanTrace : Nat → List PlanFilesResult → List Event
  | _, [] => []
  | i, p :: rest =>
    Event.planFilesCalled i :: Event.planFilesCompleteDispatched p
      :: mkPlanTrace (i + 1) rest

/-- Helper: appending one recorded plan appends one call/dispatch pair. -/
theorem mkPlanTrace_append (p : PlanFilesResult) :
    ∀ (ps : List PlanFilesResult) (i : Nat),
      mkPlanTrace i (ps ++ [p]) = mkPlanTrace i ps
        ++ [Event.planFilesCalled (i + ps.length),
            Event.planFilesCompleteDispatched p] := by
  intro ps
  induction ps with
  | nil =>
    intro i
    simp [mkPlanTrace]
  | cons q qs ih =>
    intro i
    have harith : i + (qs.length + 1) = (i + 1) + qs.length := by omega
    simp [mkPlanTrace, ih (i + 1), harith]

/-- Helper: the alternating trace holds one dispatch per recorded plan. -/
theorem mkPlanTrace_dispatched_length :
    ∀ (ps : List PlanFilesResult) (i : Nat),
      ((mkPlanTrace i ps).filter isDispatched).length = ps.length := by
  intro ps
  induction ps with
  | nil => intro i; rfl
  | cons q qs ih =>
    intro i
    simp [mkPlanTrace, isDispatched, isPlanFilesCalled, ih (i + 1)]

/-- Helper: the alternating trace holds one call per recorded plan. -/
theorem mkPlanTrace_called_length :
    ∀ (ps : List PlanFilesResult) (i : Nat),
      ((mkPlanTrace i ps).filter isPlanFilesCalled).length = ps.length := by
  intro ps
  induction ps with
  | nil => intro i; rfl
  | cons q qs ih =>
    intro i
    simp [mkPlanTrace, isDispatched, isPlanFilesCalled, ih (i + 1)]

/-- Helper: restricting to plan events preserves the dispatches. -/
theorem filter_dispatched_planEvents (tr : List Event) :
    (tr.filter isPlanEvent).filter isDispatched = tr.filter isDispatched := by
  induction tr with
  | nil => rfl
  | cons e es ih =>
    cases e <;> simp [isPlanEvent, isPlanFilesCalled, isDispatched, ih]

/-- Helper: restricting to plan events preserves the planning calls. -/
theorem filter_called_planEvents (tr : List Event) :
    (tr.filter isPlanEvent).filter isPlanFilesCalled = tr.filter isPlanFilesCalled := by
  induction tr with
  | nil => rfl
  | cons e es ih =>
    cases e <;> simp [isPlanEvent, isPlanFilesCalled, isDispatched, ih]

/-- Helper: the loop preserves the call/dispatch alternation invariant:
if the plan events of the trace so far are exactly the alternating trace
of the recorded plans and the next call index is the number of recorded
plans, the same holds of any state the loop completes in. -/
theorem loop_preserves_planTrace (env : Env) :
    ∀ (fuel iter : Nat) (pf : List String) (st st' : RunState),
      st.trace.filter isPlanEvent = mkPlanTrace 0 st.planFilesResults →
      st.planFilesResults.length = iter + 1 →
      planAndRefactorLoop env fuel iter pf st = some (Except.ok st') →
      st'.trace.filter isPlanEvent = mkPlanTrace 0 st'.planFilesResults := by
  intro fuel
  induction fuel with
  | zero =>
    intro iter pf st st' _ _ hrun
    simp [planAndRefactorLoop] at hrun
  | succ fuel ih =>
    intro iter pf st st' hinv hlen hrun
    by_cases hpf : pf = []
    · subst hpf
      rw [planAndRefactorLoop_nil] at hrun
      obtain rfl : st = st' := by simpa using hrun
      exact hinv
    · rw [planAndRefactorLoop_cons env fuel iter pf st hpf] at hrun
      cases hres : catchCycleDetected (env.planFiles (iter + 1)) with
      | error e =>
        rw [hres] at hrun
        simp at hrun
      | ok rep =>
        rw [hres] at hrun
        refine ih (iter + 1) rep.plannedFiles _ st' ?_ ?_ hrun
        · rw [List.filter_append, hinv, mkPlanTrace_append]
          simp [isPlanEvent, isPlanFilesCalled, isDispatched, hlen]
        · simp [hlen]

/-- Helper: a completed run's trace restricted to plan events is the
alternating call/dispatch trace of its recorded plans, calls numbered
from 0. -/
theorem planAndRefactor_planTrace (env : Env) (fuel : Nat) (res : RunResult)
    (tr : List Event)
    (h : planAndRefactor env fuel = some (Except.ok (res, tr))) :
    tr.filter isPlanEvent = mkPlanTrace 0 res.planFilesResults := by
  unfold planAndRefactor at h
  cases h0 : env.planFiles 0 with
  | error e =>
    rw [h0] at h
    simp at h
  | ok p0 =>
    rw [h0] at h
    dsimp only at h
    cases hrun : planAndRefactorLoop env fuel 0 p0.plannedFiles
        { files := emptyRefactorFilesResult,
          planFilesResults := [p0],
          trace := [Event.planFilesCalled 0,
                    Event.planFilesCompleteDispatched p0] } with
    | none =>
      rw [hrun] at h
      simp at h
    | some r =>
      cases r with
      | error e =>
        rw [hrun] at h
        simp at h
      | ok stF =>
        rw [hrun] at h
        simp only [Option.some.injEq, Except.ok.injEq, Prod.mk.injEq] at h
        obtain ⟨rfl, rfl⟩ := h
        have hmain := loop_preserves_planTrace env fuel 0 p0.plannedFiles _ stF
          (by simp [isPlanEvent, isPlanFilesCalled, isDispatched, mkPlanTrace])
          (by simp) hrun
        simpa using hmain

/-- Helper: a run whose first plan is non-empty and whose first
re-planning outcome (after the cycle-catching clause) is an empty plan
terminates after the first batch with exactly the two recorded plans,
the first batch's merged results, and the seven-event trace. -/
theorem planAndRefactor_two_planning_calls (env : Env) (pf0 : List String)
    (r0 : String) (rep : PlanFilesResult) (fuel : Nat) (hne : pf0 ≠ [])
    (h0 : env.planFiles 0 = Except.ok { plannedFiles := pf0, rawResponse := r0 })
    (h1 : catchCycleDetected (env.planFiles 1) = Except.ok rep)
    (hrep : rep.plannedFiles = []) :
    planAndRefactor env (fuel + 2) = some (Except.ok (
      { accepted := (mutateToMergeRefactorFilesResults
          (env.refactorBatch 0 pf0) emptyRefactorFilesResult).accepted,
        discarded := (mutateToMergeRefactorFilesResults
          (env.refactorBatch 0 pf0) emptyRefactorFilesResult).discarded,
        planFilesResults := [{ plannedFiles := pf0, rawResponse := r0 }, rep] },
      [Event.planFilesCalled 0,
       Event.planFilesCompleteDispatched { plannedFiles := pf0, rawResponse := r0 },
       Event.refactorBatchCalled 0 pf0, Event.resetCalled 0, Event.resultsMerged 0,
       Event.planFilesCalled 1, Event.planFilesCompleteDispatched rep])) := by
  unfold planAndRefactor
  rw [h0]
  dsimp only
  rw [show fuel + 2 = (fuel + 1) + 1 from rfl,
    planAndRefactorLoop_cons env (fuel + 1) 0 pf0 _ hne, h1]
  dsimp only
  rw [hrep, planAndRefactorLoop_nil]
  simp

/-- The empty initial run state, used by witnesses. -/
def emptyRunState : RunState :=
  { files := emptyRefactorFilesResult, planFilesResults := [], trace := [] }

/-- A planner that proposes `["x"]` and then detects a cycle; batches
produce no results. -/
def cycleAtOneEnv : Env :=
  { planFiles := fun n =>
      if n = 0 then Except.ok { plannedFiles := ["x"], rawResponse := "r0" }
      else Except.error JsError.cycleDetected,
    refactorBatch := fun _ _ => emptyRefactorFilesResult }

/-- A planner that proposes `["x"]` and then rejects with an
I/O-flavoured error; batches produce no results. -/
def otherErrorAtOneEnv : Env :=
  { planFiles := fun n =>
      if n = 0 then Except.ok { plannedFiles := ["x"], rawResponse := "r0" }
      else Except.error (JsError.other "io"),
    refactorBatch := fun _ _ => emptyRefactorFilesResult }

/-- A planner that proposes `["x"]` and then the empty plan; batches
produce no results. -/
def planEndsEnv : Env :=
  { planFiles := fun n =>
      if n = 0 then Except.ok { plannedFiles := ["x"], rawResponse := "r0" }
      else Except.ok { plannedFiles := [], rawResponse := "r1" },
    refactorBatch := fun _ _ => emptyRefactorFilesResult }

/-- A planner that returns `["a", "b"]` on its first two calls without
raising, then rejects; batches produce no results. -/
def repeatedPlanEnv : Env :=
  { planFiles := fun n =>
      if n = 0 then Except.ok { plannedFiles := ["a", "b"], rawResponse := "r0" }
      else if n = 1 then Except.ok { plannedFiles := ["a", "b"], rawResponse := "r1" }
      else Except.error (JsError.other "aborted"),
    refactorBatch := fun _ _ => emptyRefactorFilesResult }

/-- A planner that returns `["a", "b"]` on every call without ever
raising; batches produce no results. -/
def alwaysSamePlanEnv : Env :=
  { planFiles := fun _ =>
      Except.ok { plannedFiles := ["a", "b"], rawResponse := "r" },
    refactorBatch := fun _ _ => emptyRefactorFilesResult }

/-- A planner that returns `["a", "b"]` and then raises the cycle
signal; batches produce no results. -/
def cycleAfterRepeatEnv : Env :=
  { planFiles := fun n =>
      if n = 0 then Except.ok { plannedFiles := ["a", "b"], rawResponse := "r0" }
      else Except.error JsError.cycleDetected,
    refactorBatch := fun _ _ => emptyRefactorFilesResult }

/-- Witness for C1: with a planner that detects a cycle on the
re-planning call the loop ends successfully with the substituted empty
plan recorded; with one that rejects otherwise the error propagates. -/
theorem replanning_error_handling_witness :
    planAndRefactorLoop cycleAtOneEnv 2 0 ["x"] emptyRunState = some (Except.ok
      { files := mutateToMergeRefactorFilesResults
          (cycleAtOneEnv.refactorBatch 0 ["x"]) emptyRunState.files,
        planFilesResults := emptyRunState.planFilesResults
          ++ [{ plannedFiles := [], rawResponse := "" }],
        trace := emptyRunState.trace
          ++ [Event.refactorBatchCalled 0 ["x"], Event.resetCalled 0,
              Event.resultsMerged 0, Event.planFilesCalled 1,
              Event.planFilesCompleteDispatched
                { plannedFiles := [], rawResponse := "" }] })
    ∧ planAndRefactorLoop otherErrorAtOneEnv 2 0 ["x"] emptyRunState
        = some (Except.error (JsError.other "io",
            emptyRunState.trace
              ++ [Event.refactorBatchCalled 0 ["x"], Event.resetCalled 0,
                  Event.resultsMerged 0, Event.planFilesCalled 1])) :=
  ⟨(replanning_error_handling cycleAtOneEnv 0 0 ["x"] emptyRunState
      (by simp)).1 rfl,
   (replanning_error_handling otherErrorAtOneEnv 0 0 ["x"] emptyRunState
      (by simp)).2 "io" rfl⟩

/-- Witness for C5: the loop exits at once on the empty plan and, on
`["x"]`, performs the batch, reset, merge and re-planning in order. -/
theorem loop_iteration_order_witness :
    planAndRefactorLoop planEndsEnv 1 0 [] emptyRunState
      = some (Except.ok emptyRunState)
    ∧ planAndRefactorLoop planEndsEnv 2 0 ["x"] emptyRunState
      = some (Except.ok
          { files := mutateToMergeRefactorFilesResults
              (planEndsEnv.refactorBatch 0 ["x"]) emptyRunState.files,
            planFilesResults := [{ plannedFiles := [], rawResponse := "r1" }],
            trace := [Event.refactorBatchCalled 0 ["x"], Event.resetCalled 0,
              Event.resultsMerged 0, Event.planFilesCalled 1,
              Event.planFilesCompleteDispatched
                { plannedFiles := [], rawResponse := "r1" }] }) :=
  ⟨(loop_iteration_order planEndsEnv 0 0 [] emptyRunState).1 rfl,
   by
    rw [(loop_iteration_order planEndsEnv 1 0 ["x"] emptyRunState).2 (by simp)]
    rfl⟩

/-- C6: in every completed run, the plan events of the trace alternate
as call 0, dispatch of the first recorded plan, call 1, dispatch of the
second recorded plan, and so on — every planning call, the initial one
and every re-planning call (cache hit or substituted empty plan alike),
is followed by exactly one `planFilesComplete` dispatch before the next
call — so the number of dispatches equals the number of planning
attempts recorded in `planFilesResults`. -/
theorem planning_calls_dispatch_alternation (env : Env) (fuel : Nat)
    (res : RunResult) (tr : List Event)
    (h : planAndRefactor env fuel = some (Except.ok (res, tr))) :
    tr.filter isPlanEvent = mkPlanTrace 0 res.planFilesResults
    ∧ (tr.filter isDispatched).length = res.planFilesResults.length := by
  have hmain := planAndRefactor_planTrace env fuel res tr h
  refine ⟨hmain, ?_⟩
  rw [← filter_dispatched_planEvents, hmain, mkPlanTrace_dispatched_length]

/-- The result of the sample two-call run of `planEndsEnv`. -/
def planEndsRunResult : RunResult :=
  { accepted := (mutateToMergeRefactorFilesResults
      (planEndsEnv.refactorBatch 0 ["x"]) emptyRefactorFilesResult).accepted,
    discarded := (mutateToMergeRefactorFilesResults
      (planEndsEnv.refactorBatch 0 ["x"]) emptyRefactorFilesResult).discarded,
    planFilesResults := [{ plannedFiles := ["x"], rawResponse := "r0" },
                         { plannedFiles := [], rawResponse := "r1" }] }

/-- The trace of the sample two-call run of `planEndsEnv`. -/
def planEndsTrace : List Event :=
  [Event.planFilesCalled 0,
   Event.planFilesCompleteDispatched { plannedFiles := ["x"], rawResponse := "r0" },
   Event.refactorBatchCalled 0 ["x"], Event.resetCalled 0, Event.resultsMerged 0,
   Event.planFilesCalled 1,
   Event.planFilesCompleteDispatched { plannedFiles := [], rawResponse := "r1" }]

/-- Witness for C6 on the sample two-call run. -/
theorem planning_calls_dispatch_alternation_witness :
    planEndsTrace.filter isPlanEvent = mkPlanTrace 0 planEndsRunResult.planFilesResults
    ∧ (planEndsTrace.filter isDispatched).length
        = planEndsRunResult.planFilesResults.length :=
  planning_calls_dispatch_alternation planEndsEnv 5 planEndsRunResult planEndsTrace rfl

/-- C8: a completed run records in `planFilesResults` exactly one
`{plannedFiles, rawResponse}` record per planning call, in call order;
in particular a run whose first plan is non-empty and whose first
re-plan is empty terminates with exactly the two planning records, in
order, alongside the first batch's merged results. -/
theorem planFilesResults_audit_trail :
    (∀ (env : Env) (fuel : Nat) (res : RunResult) (tr : List Event),
        planAndRefactor env fuel = some (Except.ok (res, tr)) →
        (tr.filter isPlanFilesCalled).length = res.planFilesResults.length)
    ∧ (∀ (env : Env) (pf0 : List String) (r0 r1 : String) (fuel : Nat),
        pf0 ≠ [] →
        env.planFiles 0 = Except.ok { plannedFiles := pf0, rawResponse := r0 } →
        env.planFiles 1 = Except.ok { plannedFiles := [], rawResponse := r1 } →
        planAndRefactor env (fuel + 2) = some (Except.ok (
          { accepted := (mutateToMergeRefactorFilesResults
              (env.refactorBatch 0 pf0) emptyRefactorFilesResult).accepted,
            discarded := (mutateToMergeRefactorFilesResults
              (env.refactorBatch 0 pf0) emptyRefactorFilesResult).discarded,
            planFilesResults := [{ plannedFiles := pf0, rawResponse := r0 },
                                 { plannedFiles := [], rawResponse := r1 }] },
          [Event.planFilesCalled 0,
           Event.planFilesCompleteDispatched { plannedFiles := pf0, rawResponse := r0 },
           Event.refactorBatchCalled 0 pf0, Event.resetCalled 0, Event.resultsMerged 0,
           Event.planFilesCalled 1,
           Event.planFilesCompleteDispatched
             { plannedFiles := [], rawResponse := r1 }]))) := by
  constructor
  · intro env fuel res tr h
    have hmain := planAndRefactor_planTrace env fuel res tr h
    rw [← filter_called_planEvents, hmain, mkPlanTrace_called_length]
  · intro env pf0 r0 r1 fuel hne h0 h1
    exact planAndRefactor_two_planning_calls env pf0 r0
      { plannedFiles := [], rawResponse := r1 } fuel hne h0 (by rw [h1]; rfl) rfl

/-- Witness for C8 on the sample two-call run. -/
theorem planFilesResults_audit_trail_witness :
    (planEndsTrace.filter isPlanFilesCalled).length
      = planEndsRunResult.planFilesResults.length
    ∧ planAndRefactor planEndsEnv 2 = some (Except.ok (
        { accepted := (mutateToMergeRefactorFilesResults
            (planEndsEnv.refactorBatch 0 ["x"]) emptyRefactorFilesResult).accepted,
          discarded := (mutateToMergeRefactorFilesResults
            (planEndsEnv.refactorBatch 0 ["x"]) emptyRefactorFilesResult).discarded,
          planFilesResults := [{ plannedFiles := ["x"], rawResponse := "r0" },
                               { plannedFiles := [], rawResponse := "r1" }] },
        [Event.planFilesCalled 0,
         Event.planFilesCompleteDispatched { plannedFiles := ["x"], rawResponse := "r0" },
         Event.refactorBatchCalled 0 ["x"], Event.resetCalled 0, Event.resultsMerged 0,
         Event.planFilesCalled 1,
         Event.planFilesCompleteDispatched
           { plannedFiles := [], rawResponse := "r1" }])) :=
  ⟨planFilesResults_audit_trail.1 planEndsEnv 5 planEndsRunResult planEndsTrace rfl,
   planFilesResults_audit_trail.2 planEndsEnv ["x"] "r0" "r1" 0 (by simp) rfl rfl⟩

/-- Counterexample to C7: a planner that returns `["a", "b"]` on both of
its first two calls without raising does not make the loop terminate
after the second planning call — the run executes a second batch and
issues a third planning call (here the third call rejects, aborting the
run), and under a planner that keeps answering `["a", "b"]` the loop
never exits (the fuel runs out). -/
theorem repeated_plan_without_error_keeps_looping :
    planAndRefactor repeatedPlanEnv 10 = some (Except.error (JsError.other "aborted",
      [Event.planFilesCalled 0,
       Event.planFilesCompleteDispatched { plannedFiles := ["a", "b"], rawResponse := "r0" },
       Event.refactorBatchCalled 0 ["a", "b"], Event.resetCalled 0, Event.resultsMerged 0,
       Event.planFilesCalled 1,
       Event.planFilesCompleteDispatched { plannedFiles := ["a", "b"], rawResponse := "r1" },
       Event.refactorBatchCalled 1 ["a", "b"], Event.resetCalled 1, Event.resultsMerged 1,
       Event.planFilesCalled 2]))
    ∧ planAndRefactor alwaysSamePlanEnv 10 = none :=
  ⟨rfl, rfl⟩

/-- C7 (amended): if the planner returns `["a", "b"]` on the first call
and raises `CycleDetectedError` on the second call (no progress), the
loop terminates after the second planning call without raising,
returning only the first batch's accumulated results together with the
recorded substituted empty plan. -/
theorem cycle_signal_terminates_after_second_call (env : Env) (r0 : String)
    (fuel : Nat)
    (h0 : env.planFiles 0 = Except.ok { plannedFiles := ["a", "b"], rawResponse := r0 })
    (h1 : env.planFiles 1 = Except.error JsError.cycleDetected) :
    planAndRefactor env (fuel + 2) = some (Except.ok (
      { accepted := (mutateToMergeRefactorFilesResults
          (env.refactorBatch 0 ["a", "b"]) emptyRefactorFilesResult).accepted,
        discarded := (mutateToMergeRefactorFilesResults
          (env.refactorBatch 0 ["a", "b"]) emptyRefactorFilesResult).discarded,
        planFilesResults := [{ plannedFiles := ["a", "b"], rawResponse := r0 },
                             { plannedFiles := [], rawResponse := "" }] },
      [Event.planFilesCalled 0,
       Event.planFilesCompleteDispatched { plannedFiles := ["a", "b"], rawResponse := r0 },
       Event.refactorBatchCalled 0 ["a", "b"], Event.resetCalled 0, Event.resultsMerged 0,
       Event.planFilesCalled 1,
       Event.planFilesCompleteDispatched { plannedFiles := [], rawResponse := "" }])) :=
  planAndRefactor_two_planning_calls env ["a", "b"] r0
    { plannedFiles := [], rawResponse := "" } fuel (by simp) h0 (by rw [h1]; rfl) rfl

/-- Witness for the amended C7 on a concrete cycling planner. -/
theorem cycle_signal_terminates_after_second_call_witness :
    planAndRefactor cycleAfterRepeatEnv 2 = some (Except.ok (
      { accepted := (mutateToMergeRefactorFilesResults
          (cycleAfterRepeatEnv.refactorBatch 0 ["a", "b"]) emptyRefactorFilesResult).accepted,
        discarded := (mutateToMergeRefactorFilesResults
          (cycleAfterRepeatEnv.refactorBatch 0 ["a", "b"]) emptyRefactorFilesResult).discarded,
        planFilesResults := [{ plannedFiles := ["a", "b"], rawResponse := "r0" },
                             { plannedFiles := [], rawResponse := "" }] },
      [Event.planFilesCalled 0,
       Event.planFilesCompleteDispatched { plannedFiles := ["a", "b"], rawResponse := "r0" },
       Event.refactorBatchCalled 0 ["a", "b"], Event.resetCalled 0, Event.resultsMerged 0,
       Event.planFilesCalled 1,
       Event.planFilesCompleteDispatched { plannedFiles := [], rawResponse := "" }])) :=
  cycle_signal_terminates_after_second_call cycleAfterRepeatEnv "r0" 0 rfl rfl

end RefactorBot
